import Mathlib

/-!
Verification of the PyMapify repository against its natural-language
specification.  Each section shallowly embeds one part of the source:

* `src/pymapify/google_maps.py` — URL place-name extraction;
* `src/pymapify/pymapify.py` — record filtering, proximity grouping,
  focus-location selection and marker emission;
* `examples/example_load_data.py` — the storage-backed marker merge;
* `src/pymapify/tools/database.py` — the schema create/upgrade runner,
  together with an explicit model of PostgreSQL transaction semantics
  (psycopg2 with autocommit disabled).

Coordinates are modelled as exact rationals; the geodesic great-circle
distance of the `geopy` library is an external collaborator and is kept
abstract as a parameter wherever the verified logic does not depend on it.
-/

namespace PyMapify

/-! ## Link resolver (`google_maps.extractPlaceName`)

The source searches the URL with the regular expression
`/maps/place/([^/]+)` (`re.search`, first match anywhere in the string,
greedy capture of one-or-more non-slash characters) and replaces every
`+` in the captured group by a space.  `dropSeg`, `matchPlaceAt` and
`searchSeg` implement exactly that search: `searchSeg` tries the pattern
at every start position, left to right. -/

/-- Consume the literal character list `seg` from the front of `cs`;
return the remainder on success. -/
def dropSeg : List Char → List Char → Option (List Char)
  | [], cs => some cs
  | _ :: _, [] => none
  | a :: s, c :: cs => if a = c then dropSeg s cs else none

/-- Attempt the regex `<seg>([^/]+)` anchored at the start of `cs`:
the literal segment followed by a non-empty greedy run of non-slash
characters (the capture group). -/
def matchPlaceAt (seg cs : List Char) : Option (List Char) :=
  match dropSeg seg cs with
  | none => none
  | some rest =>
      if rest.takeWhile (fun c => c ≠ '/') = [] then none
      else some (rest.takeWhile (fun c => c ≠ '/'))

/-- Unanchored search (Python `re.search`): try `matchPlaceAt` at every
start position of the string, left to right, returning the first capture. -/
def searchSeg (seg : List Char) : List Char → Option (List Char)
  | [] => none
  | c :: cs =>
      match matchPlaceAt seg (c :: cs) with
      | some name => some name
      | none => searchSeg seg cs

/-- The literal pattern segment of the source regex `/maps/place/([^/]+)`. -/
def mapsPlaceSeg : List Char := String.toList "/maps/place/"

/-- Python `"+" -> " "` character decoding used by `str.replace("+", " ")`. -/
def plusToSpace (c : Char) : Char := if c = '+' then ' ' else c

/-- Embedding of `google_maps.extractPlaceName`: search for
`/maps/place/([^/]+)`, decode `+` into spaces in the capture, and return
the empty string when there is no match. -/
def extractPlaceName (url : String) : String :=
  match searchSeg mapsPlaceSeg url.toList with
  | none => ""
  | some name => String.mk (name.map plusToSpace)

/-- Modelled from the claim's words (C9): the same extraction but matching
a bare `/place/<name>` path segment, as the spec sentence literally states. -/
def claimExtractPlaceName (url : String) : String :=
  match searchSeg (String.toList "/place/") url.toList with
  | none => ""
  | some name => String.mk (name.map plusToSpace)

/-- Counterexample URL for C9: it contains a bare `/place/<name>` path
segment but no `/maps/place/` segment, so the source regex does not match. -/
def c9Url : String := "https://example.com/place/Sydney+Opera+House/data"

/-! ## Proximity grouping (`Map._groupLocations`)

The source iterates `self.data.iterrows()` twice: the outer loop starts a
new group at every not-yet-visited row (assigning `group_id` and marking
it visited), and the inner loop scans the WHOLE row sequence again,
skipping visited rows, assigning the current `group_id` to every
unvisited row within `threshold` of the seed row and marking it visited.
Row labels are modelled by their positions `0 .. n-1`; this is a pure
renaming, since the loops only use labels as set members and dictionary
keys.  The geodesic distance is an abstract parameter `dist`. -/

/-- A record's coordinates: (latitude, longitude) as exact rationals. -/
abbrev Pt : Type := ℚ × ℚ

/-- Abstract distance function standing for `geopy.distance.geodesic(..).km`. -/
abbrev DistFn : Type := Pt → Pt → ℚ

/-- State threaded through `_groupLocations`: the `group_id` column
(`none` models the initial NaN entries), the `visited` set (a list of row
indices, most recently added first) and the running group counter. -/
structure GroupState where
  assign : List (Option ℕ)
  visited : List ℕ
  gid : ℕ
deriving DecidableEq, Repr

/-- Assign the current group id to row `j` and mark it visited
(`self.data.at[j, 'group_id'] = group_id; visited.add(j)`). -/
def markRecord (st : GroupState) (j : ℕ) : GroupState :=
  { st with assign := st.assign.set j (some st.gid), visited := j :: st.visited }

/-- One iteration of the inner scan at row `j`: skip if visited, else
join the group when the seed-to-`j` distance is below the threshold. -/
def innerStep (dist : DistFn) (th : ℚ) (seed : Pt) (recs : List Pt)
    (st : GroupState) (j : ℕ) : GroupState :=
  if j ∈ st.visited then st
  else if dist seed (recs.getD j (0, 0)) < th then markRecord st j
  else st

/-- Advance the group counter after a group has been completed
(`group_id += 1`). -/
def closeGroup (st : GroupState) : GroupState :=
  { st with gid := st.gid + 1 }

/-- One iteration of the outer loop at row `i`: skip if visited, else
seed a new group at `i`, scan the whole sequence for nearby rows, and
advance the group counter. -/
def outerStep (dist : DistFn) (th : ℚ) (recs : List Pt)
    (st : GroupState) (i : ℕ) : GroupState :=
  if i ∈ st.visited then st
  else
    closeGroup ((List.range recs.length).foldl
      (innerStep dist th (recs.getD i (0, 0)) recs) (markRecord st i))

/-- Initial state: `group_id` column all-NaN, nothing visited, counter 0. -/
def initGroupState (recs : List Pt) : GroupState :=
  ⟨List.replicate recs.length none, [], 0⟩

/-- Embedding of `Map._groupLocations`. -/
def groupLocations (dist : DistFn) (th : ℚ) (recs : List Pt) : GroupState :=
  (List.range recs.length).foldl (outerStep dist th recs) (initGroupState recs)

/-- Modelled from the spec's pseudocode (C4): identical outer loop, but the
inner scan covers only `records[i+1:]` (indices `i+1 .. n-1`), still
skipping visited rows. -/
def outerStepSpecScan (dist : DistFn) (th : ℚ) (recs : List Pt)
    (st : GroupState) (i : ℕ) : GroupState :=
  if i ∈ st.visited then st
  else
    closeGroup ((List.range' (i + 1) (recs.length - (i + 1))).foldl
      (innerStep dist th (recs.getD i (0, 0)) recs) (markRecord st i))

/-- The spec-pseudocode version of the grouping pass (C4). -/
def groupLocationsSpecScan (dist : DistFn) (th : ℚ) (recs : List Pt) : GroupState :=
  (List.range recs.length).foldl (outerStepSpecScan dist th recs) (initGroupState recs)

/-- Invariant of the grouping pass: a row whose `group_id` cell is filled
is in the `visited` set (the source writes `group_id` exactly at the
moment it adds the row to `visited`). -/
def AssignClosed (st : GroupState) : Prop :=
  ∀ k, (st.assign.getD k none).isSome = true → k ∈ st.visited

/-- Invariant of the grouping pass: the `group_id` column keeps the row
count `n`, and every visited row is a real row with a filled cell. -/
def AssignCover (n : ℕ) (st : GroupState) : Prop :=
  st.assign.length = n ∧
  ∀ k, k ∈ st.visited → k < n ∧ (st.assign.getD k none).isSome = true

/-- A concrete distance function (L1) standing in for the geodesic metric
in executable witnesses; the grouping logic is metric-agnostic. -/
def distL1 : DistFn := fun p q => |p.1 - q.1| + |p.2 - q.2|

/-- Sum of a list of rationals (Python `sum`). -/
def listSum (l : List ℚ) : ℚ := l.foldl (fun a b => a + b) 0

/-! ## Post-enrichment row filtering (`Map._processData` / `Map.loadMapData`)

After the enrichment workers join, the source runs
`self.data.dropna(subset=['latitude', 'longitude'])` — pandas' default
`how='any'`, which drops a row when EITHER coordinate is missing — and
`loadMapData` then raises `Exception("No valid destinations to map.")`
when the frame is empty.  A missing float cell (NaN) is modelled as
`none`.  A post-enrichment row can carry exactly one coordinate: the CSV
may supply one optional coordinate column and `_processRow` overwrites
the pair only when the URL yields both. -/

/-- A data row as it stands after enrichment, for the filtering step. -/
structure ERow where
  link : String
  place_name : String
  open_time : Option String
  close_time : Option String
  marker_colour : String
  latitude : Option ℚ
  longitude : Option ℚ
deriving DecidableEq, Repr

/-- Embedding of the `dropna(subset=['latitude', 'longitude'])` call in
`Map._processData`: keep exactly the rows with both coordinates present. -/
def processDataFilter (data : List ERow) : List ERow :=
  data.filter (fun r => r.latitude.isSome && r.longitude.isSome)

/-- Embedding of the tail of `Map.loadMapData`: after `_processData`, an
empty frame aborts the run. -/
def loadMapDataCheck (data : List ERow) : Except String (List ERow) :=
  if (processDataFilter data).isEmpty then
    Except.error "No valid destinations to map."
  else Except.ok (processDataFilter data)

/-- Modelled from the claim's words (C8): drop exactly the rows lacking
BOTH coordinates, keeping every row that has at least one. -/
def claimBothMissingFilter (data : List ERow) : List ERow :=
  data.filter (fun r => !(r.latitude.isNone && r.longitude.isNone))

/-- A row holding a latitude but no longitude, as produced by a CSV with
only a `latitude` column and a link without an `@lat,lon` pattern. -/
def c8HalfRow : ERow :=
  ⟨"https://maps.app.goo.gl/x", "Somewhere", none, none, "blue", some 5, none⟩

/-! ## Marker emission (`Map.plotMap`, `Map._createIcon`)

`plotMap` groups the frame by `group_id` (pandas `groupby` sorts the
keys ascending and keeps the original row order inside each group), and
emits one `folium.Marker` per group: located at the FIRST member row's
coordinates (`group.iloc[0]`), carrying the `<br><br>`-joined popup
labels of all members in member order, and an icon coloured by the first
member's `marker_colour` through `_createIcon`'s Python-`or` fallback
chain.  Strings model `marker_colour` (the enrichment step has already
replaced NaN by the configured default, which may itself be empty). -/

/-- A grouped data row as `plotMap` sees it. -/
structure Row where
  place_name : String
  open_time : Option String
  close_time : Option String
  latitude : ℚ
  longitude : ℚ
  marker_colour : String
  group_id : ℕ
deriving DecidableEq, Repr, Inhabited

/-- Python string `or`: the left operand unless it is empty (falsy). -/
def pyOr (a b : String) : String := if a = "" then b else a

/-- The data of a `folium.Icon`. -/
structure Icon where
  color : String
  icon : String
  pre : String
deriving DecidableEq, Repr

/-- Embedding of `Map._createIcon`:
`colour or config["marker_colour"] or "blue"` etc. -/
def createIcon (cfgColour cfgIcon cfgPre colour icon pre : String) : Icon :=
  ⟨pyOr (pyOr colour cfgColour) "blue",
   pyOr (pyOr icon cfgIcon) "circle",
   pyOr (pyOr pre cfgPre) "fa"⟩

/-- Per-row popup HTML snippet built inside `plotMap` (the timed variant
is used when both times are present; the separator bytes are the ones in
the source file). -/
def popupHtml (r : Row) : String :=
  match r.open_time, r.close_time with
  | some ot, some ct =>
      "<span><b>" ++ r.place_name ++ "</b> " ++ ot ++ "â€“" ++ ct ++ "</span>"
  | _, _ => "<span><b>" ++ r.place_name ++ "</b></span>"

/-- The data of one emitted `folium.Marker`. -/
structure MarkerOut where
  location : Pt
  icon : Icon
  popup : String
deriving DecidableEq, Repr

/-- The marker `plotMap` emits for one group (member rows in frame
order): first member's location, merged popup, icon from the first
member's colour. -/
def markerOfGroup (cfgColour cfgIcon cfgPre : String) (group : List Row) : MarkerOut :=
  { location := ((group.headD default).latitude, (group.headD default).longitude),
    icon := createIcon cfgColour cfgIcon cfgPre (group.headD default).marker_colour "" "",
    popup := String.intercalate "<br><br>" (group.map popupHtml) }

/-- Insertion into a sorted list (ascending), used to model pandas
`groupby`'s sorted key order. -/
def insertSorted (x : ℕ) : List ℕ → List ℕ
  | [] => [x]
  | y :: ys => if x ≤ y then x :: y :: ys else y :: insertSorted x ys

/-- Insertion sort of the distinct group ids. -/
def sortNat (l : List ℕ) : List ℕ := l.foldr insertSorted []

/-- The distinct group ids occurring in the frame. -/
def groupIdsOf (rows : List Row) : List ℕ :=
  (rows.map (fun r => r.group_id)).dedup

/-- `groupby('group_id')` key order: distinct ids, ascending. -/
def sortedGroupIds (rows : List Row) : List ℕ := sortNat (groupIdsOf rows)

/-- The member rows of one group, in frame order. -/
def membersOf (rows : List Row) (gid : ℕ) : List Row :=
  rows.filter (fun r => r.group_id == gid)

/-- Embedding of the marker-emission loop of `Map.plotMap`. -/
def plotMapMarkers (cfgColour cfgIcon cfgPre : String) (rows : List Row) : List MarkerOut :=
  (sortedGroupIds rows).map
    (fun gid => markerOfGroup cfgColour cfgIcon cfgPre (membersOf rows gid))

/-- Modelled from the claim's words (C6): the group's representative
location as the mean of all member latitudes and longitudes. -/
def claimRepresentativeLocation (group : List Row) : Pt :=
  (listSum (group.map (fun r => r.latitude)) / group.length,
   listSum (group.map (fun r => r.longitude)) / group.length)

/-- C6 counterexample input: one group with members at `(0,0)` and `(2,2)`. -/
def c6Rows : List Row :=
  [⟨"A", none, none, 0, 0, "", 0⟩, ⟨"B", none, none, 2, 2, "", 0⟩]

/-- Witness groups for C10: equal first-member colour `red`, different
later members and other fields. -/
def c10GroupA : List Row := [⟨"A", none, none, 0, 0, "red", 0⟩]

/-- Second witness group for C10. -/
def c10GroupB : List Row :=
  [⟨"B", some "9", some "17", 3, 4, "red", 1⟩, ⟨"C", none, none, 9, 9, "green", 1⟩]

/-! ## Storage-backed grouping (`example_load_data.getMarker`)

`getMarker` scans all `marker` rows in store order; the first marker with
`distance <= threshold` (the code skips on `distance > threshold`)
absorbs the incoming place: the marker's coordinates are UPDATEd to the
unweighted mean of the coordinates of the marker's prior `place` rows
AND THE MARKER'S OWN CURRENT coordinates — the Python
`zip(*place_results, (marker[2], marker[3]))` appends the marker's
latitude/longitude tuple, not the candidate row's — and its label
becomes `old + "<br><br>" + new`.  With no marker in range, a new marker
is INSERTed at the candidate's own coordinates. -/

/-- A `marker` table row. -/
structure MarkerRow where
  id : ℕ
  name : String
  latitude : ℚ
  longitude : ℚ
  icon_id : ℕ
deriving DecidableEq, Repr

/-- A `place` table row (the columns `getMarker` reads). -/
structure PlaceRow where
  latitude : ℚ
  longitude : ℚ
  marker_id : ℕ
deriving DecidableEq, Repr

/-- The incoming CSV row as `loadDataFromCSV` passes it to `getMarker`
(empty times have been normalised to `None` beforehand). -/
structure CandRow where
  place_name : String
  open_time : Option String
  close_time : Option String
  latitude : ℚ
  longitude : ℚ
  marker_colour : String
deriving DecidableEq, Repr

/-- The relational store visible to `getMarker`, plus the id the next
`INSERT ... RETURNING id` will allocate. -/
structure MarkerStore where
  markers : List MarkerRow
  places : List PlaceRow
  nextId : ℕ
deriving DecidableEq, Repr

/-- Embedding of `_getPlaceHTMLName`. -/
def getPlaceHTMLName (name : String) (ot ct : Option String) : String :=
  match ot, ct with
  | some o, some c => "<span><b>" ++ name ++ "</b> " ++ o ++ "–" ++ c ++ "</span>"
  | _, _ => "<span><b>" ++ name ++ "</b></span>"

/-- The scan over `SELECT id, name, latitude, longitude FROM marker`:
first marker whose distance to the candidate is not above the threshold
(`if distance > threshold: continue`). -/
def findNearMarker (dist : DistFn) (th : ℚ) (cand : Pt) :
    List MarkerRow → Option MarkerRow
  | [] => none
  | m :: ms =>
      if dist cand (m.latitude, m.longitude) > th then findNearMarker dist th cand ms
      else some m

/-- `SELECT latitude, longitude FROM place WHERE marker_id = %s`. -/
def placesOf (st : MarkerStore) (mid : ℕ) : List PlaceRow :=
  st.places.filter (fun p => p.marker_id == mid)

/-- The coordinate list averaged by the code on a distance match: the
matched marker's prior member places AND the marker's own current
location (`zip(*place_results, (marker[2], marker[3]))`). -/
def mergedCoords (st : MarkerStore) (m : MarkerRow) : List Pt :=
  (placesOf st m.id).map (fun p => (p.latitude, p.longitude)) ++ [(m.latitude, m.longitude)]

/-- The mean of a list of points, component-wise (`sum(xs) / len(xs)`). -/
def meanPt (pts : List Pt) : Pt :=
  (listSum (pts.map Prod.fst) / pts.length, listSum (pts.map Prod.snd) / pts.length)

/-- Modelled from the claim's words (C5): the unweighted mean over all
prior member coordinates AND the candidate record's coordinates. -/
def claimCentroid (st : MarkerStore) (m : MarkerRow) (cand : Pt) : Pt :=
  meanPt ((placesOf st m.id).map (fun p => (p.latitude, p.longitude)) ++ [cand])

/-- The icon chosen for a newly inserted marker
(`2 if row['marker_colour'] != 'green' else 3`). -/
def newIconId (colour : String) : ℕ := if colour ≠ "green" then 2 else 3

/-- Embedding of `example_load_data.getMarker`: returns the updated
store and the marker id the place will reference. -/
def getMarker (dist : DistFn) (th : ℚ) (st : MarkerStore) (row : CandRow) :
    MarkerStore × ℕ :=
  match findNearMarker dist th (row.latitude, row.longitude) st.markers with
  | some m =>
      ({ st with markers := st.markers.map (fun mk =>
          if mk.id == m.id then
            { mk with
              name := m.name ++ "<br><br>" ++
                getPlaceHTMLName row.place_name row.open_time row.close_time,
              latitude := (meanPt (mergedCoords st m)).1,
              longitude := (meanPt (mergedCoords st m)).2 }
          else mk) },
        m.id)
  | none =>
      ({ st with
          markers := st.markers ++
            [⟨st.nextId,
              getPlaceHTMLName row.place_name row.open_time row.close_time,
              row.latitude, row.longitude, newIconId row.marker_colour⟩],
          nextId := st.nextId + 1 },
        st.nextId)

/-- C5 counterexample store: marker 1 at `(0,0)` with one prior member
place at `(4,0)`. -/
def c5Store : MarkerStore :=
  ⟨[⟨1, "A", 0, 0, 2⟩], [⟨4, 0, 1⟩], 2⟩

/-- C5 counterexample candidate at `(0, 1/2)`, within threshold 1 of
marker 1 under the L1 witness metric. -/
def c5Row : CandRow := ⟨"B", none, none, 0, 1/2, "blue"⟩

/-! ## Focus location (`Map._getFocusLocation`, `Map._calculateMeanLocation`)

The frame reaching `_getFocusLocation` carries the pandas index labels
assigned by `read_csv` (`0 .. n-1`) and preserved by both `dropna` calls
— the repository never re-indexes — plus the `group_id` column that
`plotMap` has already filled.  `data.at[0, "latitude"]` is therefore a
LABEL lookup: it returns the row labelled `0` when present (the original
first CSV row, which is then also the first remaining row since labels
stay ascending) and raises `KeyError` when that row was dropped during
filtering.  `data.iloc[-1]` is positional.  `_calculateMeanLocation`
averages over ALL record rows of the frame — each group member counted
once — not over the per-group markers.  `assert focus_type in [...]`
raising `AssertionError`, the `KeyError`/`IndexError` of the row
lookups, and the `ZeroDivisionError` of averaging an empty column are
modelled as `Except.error`. -/

/-- A row of the frame passed to `_getFocusLocation`: its preserved
pandas index label, its coordinates, and its group id. -/
structure FRow where
  label : ℕ
  latitude : ℚ
  longitude : ℚ
  group_id : ℕ
deriving DecidableEq, Repr, Inhabited

/-- Embedding of `Map._calculateMeanLocation`:
`[sum(latitudes) / len, sum(longitudes) / len]` over all record rows. -/
def calculateMeanLocation (data : List FRow) : Pt :=
  (listSum (data.map (fun r => r.latitude)) / data.length,
   listSum (data.map (fun r => r.longitude)) / data.length)

/-- Embedding of `Map._getFocusLocation`: label lookup for `first`,
positional last row for `last`, all-row mean for `centre`, assertion
failure otherwise. -/
def getFocusLocation (data : List FRow) (ftype : String) : Except String Pt :=
  if ftype = "first" ∨ ftype = "last" ∨ ftype = "centre" then
    if ftype = "first" then
      match data.find? (fun r => r.label == 0) with
      | some r => Except.ok (r.latitude, r.longitude)
      | none => Except.error "KeyError: 0"
    else if ftype = "last" then
      match data.getLast? with
      | some r => Except.ok (r.latitude, r.longitude)
      | none => Except.error "IndexError: index -1 is out of bounds"
    else
      if data.isEmpty then Except.error "ZeroDivisionError"
      else Except.ok (calculateMeanLocation data)
  else Except.error ("AssertionError: Invalid value for map_focus: " ++ ftype)

/-- Modelled from the claim's words (C7): the mean location across all
groups/markers — one location per distinct group (the emitted marker's
location, the first member's per the approved C6 amendment; the
counterexample uses groups whose members share one point, so the member
mean gives the same result). -/
def claimMarkersMean (data : List FRow) : Pt :=
  meanPt ((sortNat ((data.map (fun r => r.group_id)).dedup)).map
    (fun gid =>
      match (data.filter (fun r => r.group_id == gid)).head? with
      | some r => (r.latitude, r.longitude)
      | none => (0, 0)))

/-- C7 counterexample frame for `first`: the original first CSV row
(label 0) was dropped by the coordinate filter, labels 1 and 2 remain. -/
def c7Rows : List FRow := [⟨1, 5, 6, 0⟩, ⟨2, 7, 8, 1⟩]

/-- C7 counterexample frame for `centre`: group 0 has two members at
`(0,0)`, group 1 one member at `(3,3)` — so the markers sit at `(0,0)`
and `(3,3)` under either marker-location reading. -/
def c7CentreRows : List FRow := [⟨0, 0, 0, 0⟩, ⟨1, 0, 0, 0⟩, ⟨2, 3, 3, 1⟩]

/-! ## Schema migration runner (`tools/database.py`)

The functions run over psycopg2 with `autocommit=False`, so every
statement executes inside a server-side transaction that is opened
implicitly before the first statement and ended only by `COMMIT` /
`ROLLBACK` (`conn.commit()` / `conn.rollback()` send exactly those).  A
`Session` therefore carries the committed database state, the current
uncommitted view and the open-transaction flag:

* `execBegin` — `cursor.execute("BEGIN")`: opens a transaction if none is
  open; inside a transaction PostgreSQL only warns and does nothing;
* `execCommit` — commits the current view;
* `execRollback` — discards the current view;
* `execStmt f` — a data/schema statement, applied to the current view.

The database state tracks which upgrade schema scripts and population
scripts have been applied and the `schema_version` ledger rows.  Whether
a schema application fails, a population script exists, or its
`populate` function raises, is the environment's choice, captured by an
oracle (`UpgradeWorld`).  Failures raise before mutating state; errors
then flow through the source's `except` handlers. -/

/-- The error kinds of `tools/database.py`. -/
inductive DbErr where
  | schemaFileNotFound
  | schemaApplication
  | dataPopulation
  | database
deriving DecidableEq, Repr

/-- Observable database contents: applied upgrade-schema scripts, applied
population scripts (each tagged `from → to`), and the version ledger. -/
structure DbState where
  schemas : List (ℕ × ℕ)
  pops : List (ℕ × ℕ)
  ledger : List ℕ
deriving DecidableEq, Repr

/-- One psycopg2 connection/cursor with `autocommit=False`. -/
structure Session where
  committed : DbState
  current : DbState
  inTx : Bool
deriving DecidableEq, Repr

/-- Open a transaction implicitly if none is open (psycopg2 sends BEGIN
before the first statement when autocommit is off). -/
def ensureTx (s : Session) : Session :=
  if s.inTx then s else { s with inTx := true, current := s.committed }

/-- `cursor.execute("BEGIN")`: a no-op warning inside a transaction. -/
def execBegin (s : Session) : Session := ensureTx s

/-- `cursor.execute("COMMIT")` / `conn.commit()`: make the current view
durable and close the transaction. -/
def execCommit (s : Session) : Session :=
  { committed := (ensureTx s).current, current := (ensureTx s).current, inTx := false }

/-- `cursor.execute("ROLLBACK")` / `conn.rollback()`: discard the
current view and close the transaction. -/
def execRollback (s : Session) : Session :=
  { committed := s.committed, current := s.committed, inTx := false }

/-- Execute a state-changing SQL statement on the current view. -/
def execStmt (f : DbState → DbState) (s : Session) : Session :=
  { ensureTx s with current := f (ensureTx s).current }

/-- Environment oracle for `upgradeDatabase`: which `vA_to_vB` schema
applications fail, which population scripts exist on disk, and which of
those raise when run. -/
structure UpgradeWorld where
  schemaFails : ℕ → ℕ → Bool
  popScript : ℕ → ℕ → Bool
  popFails : ℕ → ℕ → Bool

/-- Embedding of `applySchemaVersion` for the upgrade case: raises
`SchemaApplicationError` (or `SchemaFileNotFoundError`, merged here)
without effect on failure, else executes the upgrade schema file on the
shared cursor. -/
def applySchemaVersionU (w : UpgradeWorld) (fromv tov : ℕ) (s : Session) :
    Except (DbErr × Session) Session :=
  if w.schemaFails fromv tov then Except.error (DbErr.schemaApplication, s)
  else Except.ok
    (execStmt (fun db => { db with schemas := db.schemas ++ [(fromv, tov)] }) s)

/-- Embedding of `runDataPopulationScript` for the upgrade case: absent
script returns `False`; otherwise `BEGIN`, run `populate(env)` on the
shared cursor, then `COMMIT` on success — or `ROLLBACK` and raise
`DataPopulationError` on failure. -/
def runDataPopulationScriptU (w : UpgradeWorld) (fromv tov : ℕ) (s : Session) :
    Except (DbErr × Session) (Session × Bool) :=
  if w.popScript fromv tov then
    if w.popFails fromv tov then
      Except.error (DbErr.dataPopulation, execRollback (execBegin s))
    else
      Except.ok (execCommit (execStmt
        (fun db => { db with pops := db.pops ++ [(fromv, tov)] }) (execBegin s)), true)
  else Except.ok (s, false)

/-- The `for version in range(from_version, to_version)` loop of
`upgradeDatabase`. -/
def upgradeSteps (w : UpgradeWorld) :
    List ℕ → Session → Except (DbErr × Session) Session
  | [], s => Except.ok s
  | v :: vs, s =>
      match applySchemaVersionU w v (v + 1) s with
      | Except.error e => Except.error e
      | Except.ok s1 =>
          match runDataPopulationScriptU w v (v + 1) s1 with
          | Except.error e => Except.error e
          | Except.ok (s2, _) => upgradeSteps w vs s2

/-- `INSERT INTO schema_version ... ON CONFLICT (version) DO NOTHING`. -/
def insertLedger (tov : ℕ) (db : DbState) : DbState :=
  if tov ∈ db.ledger then db else { db with ledger := db.ledger ++ [tov] }

/-- Embedding of `upgradeDatabase`: fresh connection, `BEGIN` and `LOCK`
(no modelled effect), the version loop, the ledger insert and
`conn.commit()`; on any exception, `conn.rollback()` then raise
`DatabaseError`.  The returned state is the committed database state
after the call (the connection is closed in `finally`). -/
def upgradeDatabase (w : UpgradeWorld) (init : DbState) (fromv tov : ℕ) :
    Except (DbErr × DbState) DbState :=
  match upgradeSteps w (List.range' fromv (tov - fromv))
      (execBegin ⟨init, init, false⟩) with
  | Except.error (_, sE) => Except.error (DbErr.database, (execRollback sE).committed)
  | Except.ok s2 => Except.ok (execCommit (execStmt (insertLedger tov) s2)).committed

/-- C1 failing environment: a population script exists for v1→v2 and
succeeds; the v2→v3 schema application fails. -/
def c1World : UpgradeWorld :=
  ⟨fun a b => a == 2 && b == 3, fun a b => a == 1 && b == 2, fun _ _ => false⟩

/-- C1 initial database: empty contents, ledger at version 1. -/
def c1Init : DbState := ⟨[], [], [1]⟩

/-! ### `createDatabase` and `dropDatabase`

`createDatabase` connects to the default `postgres` database
(autocommit on) to `CREATE DATABASE` when absent, closes that
connection, reconnects to the target database with `autocommit=False`,
applies the create schema (with audit-column injection), takes the
ledger lock, optionally runs the population script, and commits.  Every
`except` handler calls `conn.rollback()` and then `dropDatabase(params)`
and re-raises; `conn.close()` runs only in the `finally` block, AFTER
`dropDatabase`.  PostgreSQL refuses `DROP DATABASE` while any other
session is connected to the target database ("database is being
accessed by other users"), and `dropDatabase` swallows every exception
of its own, so a drop attempted while the creating connection is still
open leaves the database object in place. -/

/-- Environment oracle for `createDatabase`. -/
structure CreateWorld where
  schemaFails : Bool
  popScript : Bool
  popFails : Bool

/-- A PostgreSQL cluster as far as this model needs it: whether the
project database object exists, and its contents. -/
structure PgCluster where
  dbExists : Bool
  store : DbState
deriving DecidableEq, Repr

/-- Embedding of `dropDatabase`: `DROP DATABASE IF EXISTS` from a fresh
session on `postgres`; PostgreSQL rejects the drop while another session
is connected to the target, and the function logs and swallows that
error. -/
def dropDatabase (otherSessionsOpen : Bool) (cl : PgCluster) : PgCluster :=
  if otherSessionsOpen then cl else { cl with dbExists := false }

/-- Embedding of `createDatabase` (creation from scratch at version `v`;
the version dispatch and `getLatestAvailableVersion` are outside this
model).  The session B opened onto the target database stays open
through the error handlers, so both failure paths call `dropDatabase`
with another session connected. -/
def createDatabase (cw : CreateWorld) (cl : PgCluster) (v : ℕ) :
    Except (DbErr × PgCluster) PgCluster :=
  let cl1 : PgCluster := if cl.dbExists then cl else { cl with dbExists := true }
  let s0 : Session := ⟨cl1.store, cl1.store, false⟩
  if cw.schemaFails then
    Except.error (DbErr.schemaFileNotFound,
      dropDatabase true { cl1 with store := (execRollback s0).committed })
  else
    let s1 := execStmt (fun db => { db with schemas := db.schemas ++ [(0, v)] }) s0
    let s2 := execBegin s1
    if cw.popScript && cw.popFails then
      Except.error (DbErr.dataPopulation,
        dropDatabase true { cl1 with store := (execRollback (execRollback s2)).committed })
    else
      let s3 := if cw.popScript then
          execCommit (execStmt
            (fun db => { db with pops := db.pops ++ [(0, v)] }) (execBegin s2))
        else s2
      Except.ok { cl1 with store := (execCommit s3).committed }

/-- C2 failing environment: the create-schema file is missing. -/
def c2World : CreateWorld := ⟨true, false, false⟩

/-- C2 initial cluster: the project database does not exist yet. -/
def c2Cluster : PgCluster := ⟨false, ⟨[], [], []⟩⟩

/-! ## Theorems -/

theorem dropSeg_sound {seg cs rest : List Char} :
    dropSeg seg cs = some rest → cs = seg ++ rest := by
  induction seg generalizing cs with
  | nil =>
      intro h
      exact Option.some_injective _ h
  | cons a s ih =>
      cases cs with
      | nil =>
          intro h
          exact Option.noConfusion h
      | cons c cs =>
          intro h
          by_cases hac : a = c
          · rw [dropSeg, if_pos hac] at h
            rw [hac, ih h]
            rfl
          · rw [dropSeg, if_neg hac] at h
            exact Option.noConfusion h

theorem dropSeg_complete (seg rest : List Char) :
    dropSeg seg (seg ++ rest) = some rest := by
  induction seg with
  | nil => rfl
  | cons a s ih => simp [dropSeg, ih]

theorem dropSeg_eq_some {seg cs rest : List Char} :
    dropSeg seg cs = some rest ↔ cs = seg ++ rest :=
  ⟨fun h => dropSeg_sound h, fun h => h ▸ dropSeg_complete seg rest⟩

theorem matchPlaceAt_none_eq {seg cs : List Char} (h : dropSeg seg cs = none) :
    matchPlaceAt seg cs = none := by
  unfold matchPlaceAt
  rw [h]

theorem matchPlaceAt_some_eq {seg cs rest : List Char}
    (h : dropSeg seg cs = some rest) :
    matchPlaceAt seg cs =
      if rest.takeWhile (fun c => c ≠ '/') = [] then none
      else some (rest.takeWhile (fun c => c ≠ '/')) := by
  unfold matchPlaceAt
  rw [h]

theorem matchPlaceAt_eq_some {seg cs name : List Char} :
    matchPlaceAt seg cs = some name ↔
      ∃ rest, cs = seg ++ rest ∧
        name = rest.takeWhile (fun c => c ≠ '/') ∧ name ≠ [] := by
  cases hds : dropSeg seg cs with
  | none =>
      rw [matchPlaceAt_none_eq hds]
      constructor
      · intro h
        exact Option.noConfusion h
      · rintro ⟨rest, hcs, -, -⟩
        rw [dropSeg_eq_some.mpr hcs] at hds
        exact Option.noConfusion hds
  | some rest =>
      have hcs : cs = seg ++ rest := dropSeg_sound hds
      rw [matchPlaceAt_some_eq hds]
      by_cases hemp : (rest.takeWhile (fun c => c ≠ '/')) = []
      · rw [if_pos hemp]
        constructor
        · intro h
          exact Option.noConfusion h
        · rintro ⟨rest2, hcs2, hname, hnn⟩
          have hr : rest2 = rest := List.append_cancel_left (hcs2.symm.trans hcs)
          subst hr
          exact absurd (hname.trans hemp) hnn
      · rw [if_neg hemp]
        constructor
        · intro h
          have e := Option.some_injective _ h
          refine ⟨rest, hcs, e.symm, ?_⟩
          rw [← e]
          exact hemp
        · rintro ⟨rest2, hcs2, hname, -⟩
          have hr : rest2 = rest := List.append_cancel_left (hcs2.symm.trans hcs)
          subst hr
          rw [hname]

theorem takeWhile_ne_nil_of_head {p : Char → Bool} {name suf : List Char}
    (hne : name ≠ []) (hall : ∀ c ∈ name, p c) :
    (name ++ suf).takeWhile p ≠ [] := by
  cases name with
  | nil => exact absurd rfl hne
  | cons a l =>
      have ha : p a := hall a (List.mem_cons_self a l)
      simp [List.takeWhile, ha]

theorem dropWhile_head_false {α : Type} {p : α → Bool} {l : List α} {d : α}
    {ds : List α} (hd : l.dropWhile p = d :: ds) : p d = false := by
  induction l with
  | nil => simp [List.dropWhile] at hd
  | cons x xs ih =>
      rw [List.dropWhile_cons] at hd
      by_cases hx : p x = true
      · rw [if_pos hx] at hd
        exact ih hd
      · rw [if_neg hx] at hd
        injection hd with h1 h2
        rw [← h1]
        simpa using hx

/-- Completeness of the search: when `searchSeg` fails there is no
decomposition of the input around the literal segment with a non-empty,
slash-free name. -/
theorem searchSeg_none_no_decomp {seg l : List Char}
    (h : searchSeg seg l = none) :
    ∀ pre name suf, l = pre ++ seg ++ name ++ suf → name ≠ [] →
      (∀ c ∈ name, c ≠ '/') → False := by
  induction l with
  | nil =>
      intro pre name suf hdec hne _
      rcases name with - | ⟨a, name⟩
      · exact hne rfl
      · have hlen : (pre ++ seg ++ (a :: name) ++ suf).length = 0 := by
          rw [← hdec]
          rfl
        simp [List.length_append] at hlen
  | cons c cs ih =>
      intro pre name suf hdec hne hall
      have hsplit : matchPlaceAt seg (c :: cs) = none ∧ searchSeg seg cs = none := by
        unfold searchSeg at h
        cases hm : matchPlaceAt seg (c :: cs) with
        | some nm =>
            rw [hm] at h
            exact Option.noConfusion h
        | none =>
            rw [hm] at h
            exact ⟨rfl, h⟩
      cases pre with
      | nil =>
          have hcs : c :: cs = seg ++ (name ++ suf) := by
            rw [hdec]
            simp [List.append_assoc]
          have hname2 : ((name ++ suf).takeWhile (fun x => x ≠ '/')) ≠ [] := by
            apply takeWhile_ne_nil_of_head hne
            intro x hx
            simpa using hall x hx
          have h1 := hsplit.1
          rw [matchPlaceAt_some_eq (dropSeg_eq_some.mpr hcs), if_neg hname2] at h1
          exact Option.noConfusion h1
      | cons p ps =>
          have h3 : c :: cs = p :: (ps ++ seg ++ name ++ suf) := hdec
          injection h3 with h4 h5
          exact ih hsplit.2 ps name suf h5 hne hall

/-- Soundness of the search: a successful `searchSeg` yields a maximal,
non-empty, slash-free capture occurring right after the literal segment. -/
theorem searchSeg_some_decomp {seg l name : List Char}
    (h : searchSeg seg l = some name) :
    ∃ pre suf, l = pre ++ seg ++ name ++ suf ∧ name ≠ [] ∧
      (∀ c ∈ name, c ≠ '/') ∧ (suf = [] ∨ ∃ suf2, suf = '/' :: suf2) := by
  induction l with
  | nil => exact Option.noConfusion h
  | cons c cs ih =>
      unfold searchSeg at h
      cases hm : matchPlaceAt seg (c :: cs) with
      | some nm =>
          rw [hm] at h
          have hnm : nm = name := Option.some_injective _ h
          subst hnm
          rcases matchPlaceAt_eq_some.mp hm with ⟨rest, hcs, hname, hne⟩
          have hsplit2 : nm ++ rest.dropWhile (fun x => x ≠ '/') = rest := by
            rw [hname]
            exact List.takeWhile_append_dropWhile _ rest
          refine ⟨[], rest.dropWhile (fun x => x ≠ '/'), ?_, hne, ?_, ?_⟩
          · calc c :: cs = seg ++ rest := hcs
              _ = seg ++ (nm ++ rest.dropWhile (fun x => x ≠ '/')) := by rw [hsplit2]
              _ = [] ++ seg ++ nm ++ rest.dropWhile (fun x => x ≠ '/') := by
                  simp [List.append_assoc]
          · intro x hx
            rw [hname] at hx
            have := List.mem_takeWhile_imp hx
            simpa using this
          · cases hdw : rest.dropWhile (fun x => x ≠ '/') with
            | nil => exact Or.inl rfl
            | cons d ds =>
                refine Or.inr ⟨ds, ?_⟩
                have hdit := dropWhile_head_false hdw
                have hdc : d = '/' := by simpa using hdit
                rw [hdc]
      | none =>
          rw [hm] at h
          rcases ih h with ⟨pre, suf, hdec, hne, hall, hmax⟩
          refine ⟨c :: pre, suf, ?_, hne, hall, hmax⟩
          rw [hdec]
          rfl

/-- C9 counterexample: the claim states that `extractPlaceName` returns the
decoded text of a `/place/<name>` path segment whenever one is present, but
on a URL whose place segment is not preceded by `/maps`, the code returns
the empty string (its regex is `/maps/place/([^/]+)`), while the claim's
literal reading returns the decoded name. -/
theorem c9_counterexample :
    c9Url.toList =
      (String.toList "https://example.com") ++ (String.toList "/place/") ++
        (String.toList "Sydney+Opera+House") ++ (String.toList "/data")
    ∧ (String.toList "Sydney+Opera+House") ≠ []
    ∧ (∀ c ∈ String.toList "Sydney+Opera+House", c ≠ '/')
    ∧ extractPlaceName c9Url = ""
    ∧ claimExtractPlaceName c9Url = "Sydney Opera House"
    ∧ ("Sydney Opera House" : String) ≠ "" := by
  exact ⟨by decide, by decide, by decide, by decide, by decide, by decide⟩

/-- C9 (amended): for every URL string, `extractPlaceName` is pure and
total, returns the text of a `/maps/place/<name>` path segment with every
`+` replaced by a space when such a segment is present (the returned name
is a maximal slash-free run following the literal `/maps/place/`), and
returns the empty string when no such segment is present. -/
theorem extractPlaceName_amended (s : String) :
    ((¬ ∃ pre name suf, s.toList = pre ++ mapsPlaceSeg ++ name ++ suf ∧
        name ≠ [] ∧ ∀ c ∈ name, c ≠ '/') → extractPlaceName s = "")
    ∧ ((∃ pre name suf, s.toList = pre ++ mapsPlaceSeg ++ name ++ suf ∧
        name ≠ [] ∧ ∀ c ∈ name, c ≠ '/') →
      ∃ pre name suf, s.toList = pre ++ mapsPlaceSeg ++ name ++ suf ∧
        name ≠ [] ∧ (∀ c ∈ name, c ≠ '/') ∧
        (suf = [] ∨ ∃ suf2, suf = '/' :: suf2) ∧
        extractPlaceName s = String.mk (name.map plusToSpace)) := by
  constructor
  · intro hno
    unfold extractPlaceName
    cases hs : searchSeg mapsPlaceSeg s.toList with
    | none => rfl
    | some nm =>
        rcases searchSeg_some_decomp hs with ⟨pre, suf, hdec, hne, hall, -⟩
        exact absurd ⟨pre, nm, suf, hdec, hne, hall⟩ hno
  · intro hex
    cases hs : searchSeg mapsPlaceSeg s.toList with
    | none =>
        rcases hex with ⟨pre, name, suf, hdec, hne, hall⟩
        exact (searchSeg_none_no_decomp hs pre name suf hdec hne hall).elim
    | some nm =>
        rcases searchSeg_some_decomp hs with ⟨pre, suf, hdec, hne, hall, hmax⟩
        refine ⟨pre, nm, suf, hdec, hne, hall, hmax, ?_⟩
        unfold extractPlaceName
        rw [hs]

/-- Witness for C9's amended theorem at the spec's own example URL. -/
theorem extractPlaceName_amended_witness :
    ∃ pre name suf,
      (String.toList "https://maps.google.com/maps/place/Sydney+Opera+House/@-33.85,151.21") =
        pre ++ mapsPlaceSeg ++ name ++ suf ∧ name ≠ [] ∧ (∀ c ∈ name, c ≠ '/') ∧
        (suf = [] ∨ ∃ suf2, suf = '/' :: suf2) ∧
        extractPlaceName "https://maps.google.com/maps/place/Sydney+Opera+House/@-33.85,151.21" =
          String.mk (name.map plusToSpace) :=
  (extractPlaceName_amended "https://maps.google.com/maps/place/Sydney+Opera+House/@-33.85,151.21").2
    ⟨String.toList "https://maps.google.com", String.toList "Sydney+Opera+House",
      String.toList "/@-33.85,151.21", by decide, by decide, by decide⟩

theorem innerStep_visited_mono (dist : DistFn) (th : ℚ) (seed : Pt)
    (recs : List Pt) (st : GroupState) (j k : ℕ) (h : k ∈ st.visited) :
    k ∈ (innerStep dist th seed recs st j).visited := by
  unfold innerStep
  by_cases hj : j ∈ st.visited
  · rw [if_pos hj]
    exact h
  · rw [if_neg hj]
    by_cases hd : dist seed (recs.getD j (0, 0)) < th
    · rw [if_pos hd]
      exact List.mem_cons_of_mem _ h
    · rw [if_neg hd]
      exact h

theorem foldl_innerStep_visited_mono (dist : DistFn) (th : ℚ) (seed : Pt)
    (recs : List Pt) (l : List ℕ) (st : GroupState) (k : ℕ) (h : k ∈ st.visited) :
    k ∈ (l.foldl (innerStep dist th seed recs) st).visited := by
  induction l generalizing st with
  | nil => exact h
  | cons j js ih =>
      exact ih _ (innerStep_visited_mono dist th seed recs st j k h)

theorem innerStep_skip (dist : DistFn) (th : ℚ) (seed : Pt) (recs : List Pt)
    (st : GroupState) (j : ℕ) (h : j ∈ st.visited) :
    innerStep dist th seed recs st j = st := by
  unfold innerStep
  rw [if_pos h]

theorem foldl_innerStep_all_visited (dist : DistFn) (th : ℚ) (seed : Pt)
    (recs : List Pt) (l : List ℕ) (st : GroupState)
    (h : ∀ j ∈ l, j ∈ st.visited) :
    l.foldl (innerStep dist th seed recs) st = st := by
  induction l with
  | nil => rfl
  | cons j js ih =>
      have hj : j ∈ st.visited := h j (List.mem_cons_self j js)
      rw [List.foldl_cons, innerStep_skip dist th seed recs st j hj]
      exact ih (fun x hx => h x (List.mem_cons_of_mem j hx))

theorem mem_range'_bounds {j s n : ℕ} (h : j ∈ List.range' s n) :
    s ≤ j ∧ j < s + n := by
  rcases List.mem_range'.mp h with ⟨t, ht, rfl⟩
  omega

theorem mem_range'_of_bounds {j s n : ℕ} (h1 : s ≤ j) (h2 : j < s + n) :
    j ∈ List.range' s n :=
  List.mem_range'.mpr ⟨j - s, by omega, by omega⟩

/-- On any state whose visited set already contains every index below `i`,
the full inner scan of the source and the `records[i+1:]` scan of the
spec's pseudocode perform the same state transformation. -/
theorem outerStep_eq_specScan (dist : DistFn) (th : ℚ) (recs : List Pt)
    (st : GroupState) (i : ℕ) (hiN : i < recs.length)
    (hvis : ∀ k, k < i → k ∈ st.visited) :
    outerStep dist th recs st i = outerStepSpecScan dist th recs st i := by
  unfold outerStep outerStepSpecScan
  by_cases hi : i ∈ st.visited
  · rw [if_pos hi, if_pos hi]
  · rw [if_neg hi, if_neg hi]
    have h0 : (recs.length - (i + 1)) + (i + 1) = recs.length := by omega
    have hsplit : List.range recs.length =
        List.range' 0 (i + 1) ++ List.range' (i + 1) (recs.length - (i + 1)) := by
      calc List.range recs.length
          = List.range' 0 ((recs.length - (i + 1)) + (i + 1)) := by
            rw [List.range_eq_range', h0]
        _ = List.range' 0 (i + 1) ++ List.range' (0 + (i + 1)) (recs.length - (i + 1)) :=
            (List.range'_append_1 0 (i + 1) _).symm
        _ = List.range' 0 (i + 1) ++ List.range' (i + 1) (recs.length - (i + 1)) := by
            rw [Nat.zero_add]
    have hpref : ∀ j ∈ List.range' 0 (i + 1), j ∈ (markRecord st i).visited := by
      intro j hj
      have hb := mem_range'_bounds hj
      unfold markRecord
      by_cases hji : j = i
      · rw [hji]
        exact List.mem_cons_self _ _
      · exact List.mem_cons_of_mem _ (hvis j (by omega))
    rw [hsplit, List.foldl_append,
      foldl_innerStep_all_visited dist th _ recs _ _ hpref]

/-- After the outer step at `i`, every index below `i + 1` is visited,
provided every index below `i` was visited before. -/
theorem outerStep_visited_cover (dist : DistFn) (th : ℚ) (recs : List Pt)
    (st : GroupState) (i : ℕ) (hvis : ∀ k, k < i → k ∈ st.visited) :
    ∀ k, k < i + 1 → k ∈ (outerStep dist th recs st i).visited := by
  intro k hk
  unfold outerStep
  by_cases hi : i ∈ st.visited
  · rw [if_pos hi]
    by_cases hki : k = i
    · rw [hki]
      exact hi
    · exact hvis k (by omega)
  · rw [if_neg hi]
    show k ∈ ((List.range recs.length).foldl
      (innerStep dist th (recs.getD i (0, 0)) recs) (markRecord st i)).visited
    apply foldl_innerStep_visited_mono
    unfold markRecord
    by_cases hki : k = i
    · rw [hki]
      exact List.mem_cons_self _ _
    · exact List.mem_cons_of_mem _ (hvis k (by omega))

theorem closeGroup_visited (st : GroupState) :
    (closeGroup st).visited = st.visited := rfl

theorem outerStep_visited_mono (dist : DistFn) (th : ℚ) (recs : List Pt)
    (st : GroupState) (i k : ℕ) (h : k ∈ st.visited) :
    k ∈ (outerStep dist th recs st i).visited := by
  unfold outerStep
  by_cases hi : i ∈ st.visited
  · rw [if_pos hi]
    exact h
  · rw [if_neg hi]
    show k ∈ ((List.range recs.length).foldl
      (innerStep dist th (recs.getD i (0, 0)) recs) (markRecord st i)).visited
    apply foldl_innerStep_visited_mono
    exact List.mem_cons_of_mem _ h

/-- Main induction for C4: starting from any state visited-closed below
`i`, folding the source's outer step and the spec's outer step over the
index block `i, i+1, ..., i+m-1` produces identical states. -/
theorem foldl_outer_eq_specScan (dist : DistFn) (th : ℚ) (recs : List Pt) :
    ∀ (m i : ℕ) (st : GroupState), i + m ≤ recs.length →
      (∀ k, k < i → k ∈ st.visited) →
      (List.range' i m).foldl (outerStep dist th recs) st =
        (List.range' i m).foldl (outerStepSpecScan dist th recs) st := by
  intro m
  induction m with
  | zero => intro i st _ _; rfl
  | succ m ih =>
      intro i st hle hvis
      rw [List.range'_succ, List.foldl_cons, List.foldl_cons,
        ← outerStep_eq_specScan dist th recs st i (by omega) hvis]
      exact ih (i + 1) _ (by omega) (outerStep_visited_cover dist th recs st i hvis)

/-- Theorem for claim C4: the implemented grouping loop, whose inner scan
iterates over the entire record sequence and skips visited records,
computes exactly the same final state — in particular identical
`group_id` assignments — as the spec's pseudocode whose inner scan covers
only `records[i+1:]`, for every distance function, threshold and input
sequence. -/
theorem groupLocations_eq_specScan (dist : DistFn) (th : ℚ) (recs : List Pt) :
    groupLocations dist th recs = groupLocationsSpecScan dist th recs := by
  unfold groupLocations groupLocationsSpecScan
  rw [List.range_eq_range']
  exact foldl_outer_eq_specScan dist th recs recs.length 0 (initGroupState recs)
    (by omega) (fun k hk => absurd hk (by omega))

theorem getD_set_ne {α : Type} (l : List α) {i j : ℕ} (a d : α) (h : i ≠ j) :
    (l.set i a).getD j d = l.getD j d := by
  rw [List.getD_eq_getElem?_getD, List.getD_eq_getElem?_getD, List.getElem?_set_ne h]

theorem getD_set_self {α : Type} (l : List α) {i : ℕ} (a d : α) (h : i < l.length) :
    (l.set i a).getD i d = a := by
  rw [List.getD_eq_getElem?_getD, List.getElem?_set_self h]
  rfl

theorem getD_replicate_none {β : Type} (n k : ℕ) :
    ((List.replicate n (none : Option β)).getD k none) = none := by
  rw [List.getD_eq_getElem?_getD]
  cases h : (List.replicate n (none : Option β))[k]? with
  | none => rfl
  | some v =>
      rw [List.eq_of_mem_replicate (List.getElem?_mem h)]
      rfl

theorem markRecord_assignClosed {st : GroupState} (h : AssignClosed st) (j : ℕ) :
    AssignClosed (markRecord st j) := by
  intro k hk
  unfold markRecord at hk ⊢
  by_cases hkj : k = j
  · rw [hkj]
    exact List.mem_cons_self _ _
  · rw [getD_set_ne _ _ _ (fun he => hkj he.symm)] at hk
    exact List.mem_cons_of_mem _ (h k hk)

theorem markRecord_assign_preserve {st : GroupState} {i g j : ℕ}
    (hcl : AssignClosed st) (hvj : j ∉ st.visited)
    (ha : st.assign.getD i none = some g) :
    (markRecord st j).assign.getD i none = some g := by
  by_cases hij : i = j
  · subst hij
    exact absurd (hcl i (by rw [ha]; rfl)) hvj
  · unfold markRecord
    rw [getD_set_ne _ _ _ (fun he => hij he.symm)]
    exact ha

theorem markRecord_assignCover {n : ℕ} {st : GroupState}
    (h : AssignCover n st) {j : ℕ} (hj : j < n) :
    AssignCover n (markRecord st j) := by
  obtain ⟨hlen, hcov⟩ := h
  constructor
  · unfold markRecord
    simpa [List.length_set] using hlen
  · intro k hk
    unfold markRecord at hk ⊢
    rcases List.mem_cons.mp hk with hkj | hk2
    · subst hkj
      refine ⟨hj, ?_⟩
      rw [getD_set_self _ _ _ (by rw [hlen]; exact hj)]
      rfl
    · rcases hcov k hk2 with ⟨hkn, hks⟩
      refine ⟨hkn, ?_⟩
      by_cases hjk : j = k
      · subst hjk
        rw [getD_set_self _ _ _ (by rw [hlen]; exact hj)]
        rfl
      · rw [getD_set_ne _ _ _ hjk]
        exact hks

theorem innerStep_assignClosed (dist : DistFn) (th : ℚ) (seed : Pt)
    (recs : List Pt) {st : GroupState} (h : AssignClosed st) (j : ℕ) :
    AssignClosed (innerStep dist th seed recs st j) := by
  unfold innerStep
  by_cases hj : j ∈ st.visited
  · rw [if_pos hj]
    exact h
  · rw [if_neg hj]
    by_cases hd : dist seed (recs.getD j (0, 0)) < th
    · rw [if_pos hd]
      exact markRecord_assignClosed h j
    · rw [if_neg hd]
      exact h

theorem innerStep_assign_preserve (dist : DistFn) (th : ℚ) (seed : Pt)
    (recs : List Pt) {st : GroupState} {i g : ℕ} (j : ℕ)
    (hcl : AssignClosed st) (ha : st.assign.getD i none = some g) :
    (innerStep dist th seed recs st j).assign.getD i none = some g := by
  unfold innerStep
  by_cases hj : j ∈ st.visited
  · rw [if_pos hj]
    exact ha
  · rw [if_neg hj]
    by_cases hd : dist seed (recs.getD j (0, 0)) < th
    · rw [if_pos hd]
      exact markRecord_assign_preserve hcl hj ha
    · rw [if_neg hd]
      exact ha

theorem innerStep_assignCover (dist : DistFn) (th : ℚ) (seed : Pt)
    (recs : List Pt) {n : ℕ} {st : GroupState} (h : AssignCover n st)
    {j : ℕ} (hj : j < n) :
    AssignCover n (innerStep dist th seed recs st j) := by
  unfold innerStep
  by_cases hv : j ∈ st.visited
  · rw [if_pos hv]
    exact h
  · rw [if_neg hv]
    by_cases hd : dist seed (recs.getD j (0, 0)) < th
    · rw [if_pos hd]
      exact markRecord_assignCover h hj
    · rw [if_neg hd]
      exact h

theorem foldl_innerStep_assignClosed (dist : DistFn) (th : ℚ) (seed : Pt)
    (recs : List Pt) (l : List ℕ) {st : GroupState} (h : AssignClosed st) :
    AssignClosed (l.foldl (innerStep dist th seed recs) st) := by
  induction l generalizing st with
  | nil => exact h
  | cons j js ih => exact ih (innerStep_assignClosed dist th seed recs h j)

theorem foldl_innerStep_assign_preserve (dist : DistFn) (th : ℚ) (seed : Pt)
    (recs : List Pt) (l : List ℕ) {st : GroupState} {i g : ℕ}
    (hcl : AssignClosed st) (ha : st.assign.getD i none = some g) :
    (l.foldl (innerStep dist th seed recs) st).assign.getD i none = some g := by
  induction l generalizing st with
  | nil => exact ha
  | cons j js ih =>
      exact ih (innerStep_assignClosed dist th seed recs hcl j)
        (innerStep_assign_preserve dist th seed recs j hcl ha)

theorem foldl_innerStep_assignCover (dist : DistFn) (th : ℚ) (seed : Pt)
    (recs : List Pt) (l : List ℕ) {n : ℕ} {st : GroupState}
    (hb : ∀ j ∈ l, j < n) (h : AssignCover n st) :
    AssignCover n (l.foldl (innerStep dist th seed recs) st) := by
  induction l generalizing st with
  | nil => exact h
  | cons j js ih =>
      exact ih (fun x hx => hb x (List.mem_cons_of_mem j hx))
        (innerStep_assignCover dist th seed recs h (hb j (List.mem_cons_self j js)))

theorem closeGroup_assign (st : GroupState) :
    (closeGroup st).assign = st.assign := rfl

theorem outerStep_assignClosed (dist : DistFn) (th : ℚ) (recs : List Pt)
    {st : GroupState} (h : AssignClosed st) (i : ℕ) :
    AssignClosed (outerStep dist th recs st i) := by
  unfold outerStep
  by_cases hi : i ∈ st.visited
  · rw [if_pos hi]
    exact h
  · rw [if_neg hi]
    intro k hk
    exact foldl_innerStep_assignClosed dist th _ recs _
      (markRecord_assignClosed h i) k hk

theorem outerStep_assign_preserve (dist : DistFn) (th : ℚ) (recs : List Pt)
    {st : GroupState} {j g : ℕ} (i : ℕ)
    (hcl : AssignClosed st) (ha : st.assign.getD j none = some g) :
    (outerStep dist th recs st i).assign.getD j none = some g := by
  unfold outerStep
  by_cases hi : i ∈ st.visited
  · rw [if_pos hi]
    exact ha
  · rw [if_neg hi]
    show ((List.range recs.length).foldl
      (innerStep dist th (recs.getD i (0, 0)) recs) (markRecord st i)).assign.getD j none = some g
    exact foldl_innerStep_assign_preserve dist th _ recs _
      (markRecord_assignClosed hcl i) (markRecord_assign_preserve hcl hi ha)

theorem outerStep_assignCover (dist : DistFn) (th : ℚ) (recs : List Pt)
    {st : GroupState} (h : AssignCover recs.length st) {i : ℕ}
    (hi : i < recs.length) :
    AssignCover recs.length (outerStep dist th recs st i) := by
  unfold outerStep
  by_cases hv : i ∈ st.visited
  · rw [if_pos hv]
    exact h
  · rw [if_neg hv]
    have hcov := foldl_innerStep_assignCover dist th (recs.getD i (0, 0)) recs
      (List.range recs.length) (fun j hj => List.mem_range.mp hj)
      (markRecord_assignCover h hi)
    exact hcov

theorem foldl_outer_visited_cover (dist : DistFn) (th : ℚ) (recs : List Pt) :
    ∀ (m i : ℕ) (st : GroupState), (∀ k, k < i → k ∈ st.visited) →
      ∀ k, k < i + m →
        k ∈ ((List.range' i m).foldl (outerStep dist th recs) st).visited := by
  intro m
  induction m with
  | zero =>
      intro i st h k hk
      exact h k (by omega)
  | succ m ih =>
      intro i st h k hk
      rw [List.range'_succ, List.foldl_cons]
      exact ih (i + 1) _ (outerStep_visited_cover dist th recs st i h) k (by omega)

theorem foldl_outer_inv (dist : DistFn) (th : ℚ) (recs : List Pt)
    (l : List ℕ) {st : GroupState} (hb : ∀ j ∈ l, j < recs.length)
    (h1 : AssignClosed st) (h2 : AssignCover recs.length st) :
    AssignClosed (l.foldl (outerStep dist th recs) st) ∧
      AssignCover recs.length (l.foldl (outerStep dist th recs) st) := by
  induction l generalizing st with
  | nil => exact ⟨h1, h2⟩
  | cons j js ih =>
      exact ih (fun x hx => hb x (List.mem_cons_of_mem j hx))
        (outerStep_assignClosed dist th recs h1 j)
        (outerStep_assignCover dist th recs h2 (hb j (List.mem_cons_self j js)))

theorem initGroupState_assignClosed (recs : List Pt) :
    AssignClosed (initGroupState recs) := by
  intro k hk
  rw [initGroupState] at hk
  rw [getD_replicate_none] at hk
  exact absurd hk (by simp)

theorem initGroupState_assignCover (recs : List Pt) :
    AssignCover recs.length (initGroupState recs) := by
  constructor
  · simp [initGroupState]
  · intro k hk
    exact absurd hk (List.not_mem_nil k)

/-- Theorem for claim C3: for every distance function, every threshold
`t > 0` and every record sequence, the grouping pass assigns every record
exactly one `group_id` — the `group_id` column has one cell per record and
every cell is filled at the end (none omitted; a record's single cell
means it cannot lie in two groups) — and a group assignment is never
changed after it is first made: both the inner-scan step and the
outer-loop step preserve every already-filled cell, on any state
satisfying the run invariant that filled rows are visited. -/
theorem groupLocations_partition (dist : DistFn) (th : ℚ) (recs : List Pt)
    (_ht : 0 < th) :
    ((groupLocations dist th recs).assign.length = recs.length
      ∧ ∀ i, i < recs.length →
          ((groupLocations dist th recs).assign.getD i none).isSome = true)
    ∧ (∀ (st : GroupState) (seed : Pt) (j i g : ℕ), AssignClosed st →
        st.assign.getD i none = some g →
        (innerStep dist th seed recs st j).assign.getD i none = some g)
    ∧ (∀ (st : GroupState) (i j g : ℕ), AssignClosed st →
        st.assign.getD j none = some g →
        (outerStep dist th recs st i).assign.getD j none = some g) := by
  have hinv := foldl_outer_inv dist th recs (List.range recs.length)
    (fun j hj => List.mem_range.mp hj)
    (initGroupState_assignClosed recs) (initGroupState_assignCover recs)
  have hcover : ∀ k, k < recs.length →
      k ∈ (groupLocations dist th recs).visited := by
    intro k hk
    unfold groupLocations
    rw [List.range_eq_range']
    exact foldl_outer_visited_cover dist th recs recs.length 0 (initGroupState recs)
      (fun x hx => absurd hx (by omega)) k (by omega)
  refine ⟨⟨hinv.2.1, ?_⟩, ?_, ?_⟩
  · intro i hi
    exact (hinv.2.2 i (hcover i hi)).2
  · intro st seed j i g hcl ha
    exact innerStep_assign_preserve dist th seed recs j hcl ha
  · intro st i j g hcl ha
    exact outerStep_assign_preserve dist th recs i hcl ha

/-- Witness for C3 at a concrete input: three records, threshold 1; the
theorem applies and every record ends with a filled `group_id`. -/
theorem groupLocations_partition_witness :
    (0 : ℚ) < 1 ∧
      ((groupLocations distL1 1 [(0, 0), (0, 1/2), (5, 5)]).assign.getD 0 none).isSome = true ∧
      ((groupLocations distL1 1 [(0, 0), (0, 1/2), (5, 5)]).assign.getD 1 none).isSome = true ∧
      ((groupLocations distL1 1 [(0, 0), (0, 1/2), (5, 5)]).assign.getD 2 none).isSome = true :=
  ⟨by norm_num,
    ((groupLocations_partition distL1 1 [(0, 0), (0, 1/2), (5, 5)] (by norm_num)).1.2
      0 (by norm_num)),
    ((groupLocations_partition distL1 1 [(0, 0), (0, 1/2), (5, 5)] (by norm_num)).1.2
      1 (by norm_num)),
    ((groupLocations_partition distL1 1 [(0, 0), (0, 1/2), (5, 5)] (by norm_num)).1.2
      2 (by norm_num))⟩

/-- C7 counterexample: (1) `first` — on a non-empty frame whose original
first row (label 0) was dropped by the coordinate filter, the code
raises `KeyError` instead of returning the first record's location
`(5, 6)`; (2) `centre` — on a frame whose group 0 has two members at
`(0,0)` and group 1 one member at `(3,3)`, the code returns the all-row
mean `(1,1)` while the claim's mean across all groups/markers is
`(3/2, 3/2)`. -/
theorem c7_counterexample :
    (∀ r ∈ c7Rows, r.label ≠ 0)
    ∧ c7Rows ≠ []
    ∧ getFocusLocation c7Rows "first" = Except.error "KeyError: 0"
    ∧ ((c7Rows.headD default).latitude, (c7Rows.headD default).longitude) =
        ((5 : ℚ), (6 : ℚ))
    ∧ getFocusLocation c7CentreRows "centre" = Except.ok (1, 1)
    ∧ claimMarkersMean c7CentreRows = (3/2, 3/2)
    ∧ ((1 : ℚ), (1 : ℚ)) ≠ ((3/2 : ℚ), (3/2 : ℚ)) := by
  refine ⟨by decide, by decide, rfl, by decide, ?_, ?_,
    fun hcontra => absurd (congrArg Prod.fst hcontra) (by norm_num)⟩
  · show getFocusLocation c7CentreRows "centre" = Except.ok (1, 1)
    unfold getFocusLocation
    rw [if_pos (Or.inr (Or.inr rfl)), if_neg (by decide), if_neg (by decide),
      if_neg (by decide)]
    simp only [Except.ok.injEq]
    unfold calculateMeanLocation c7CentreRows
    norm_num [listSum]
  · unfold claimMarkersMean c7CentreRows meanPt
    norm_num [sortNat, insertSorted, listSum]

/-- Theorem for claim C7 (amended): on every non-empty record set, focus
policy `first` yields the location of the row labelled 0 — the original
first record — and fails with `KeyError` when that row was dropped
during filtering (it does not fall back to the first remaining record);
`last` yields the last record's location; `centre` yields the mean
location across all record rows, each group member counted once (the
per-marker mean only when every group is a singleton); and any
`focus_type` value other than these three is a fatal (assertion) error. -/
theorem getFocusLocation_amended (data : List FRow) (h : data ≠ []) :
    (∀ r, data.find? (fun r2 => r2.label == 0) = some r →
        getFocusLocation data "first" = Except.ok (r.latitude, r.longitude))
    ∧ (data.find? (fun r2 => r2.label == 0) = none →
        getFocusLocation data "first" = Except.error "KeyError: 0")
    ∧ getFocusLocation data "last" =
        Except.ok ((data.getLast h).latitude, (data.getLast h).longitude)
    ∧ getFocusLocation data "centre" =
        Except.ok (listSum (data.map (fun r => r.latitude)) / data.length,
          listSum (data.map (fun r => r.longitude)) / data.length)
    ∧ ∀ t, t ∉ (["first", "last", "centre"] : List String) →
        getFocusLocation data t =
          Except.error ("AssertionError: Invalid value for map_focus: " ++ t) := by
  refine ⟨?_, ?_, ?_, ?_, ?_⟩
  · intro r hfind
    unfold getFocusLocation
    rw [if_pos (Or.inl rfl), if_pos rfl, hfind]
  · intro hfind
    unfold getFocusLocation
    rw [if_pos (Or.inl rfl), if_pos rfl, hfind]
  · unfold getFocusLocation
    rw [if_pos (Or.inr (Or.inl rfl)), if_neg (by decide), if_pos rfl]
    rw [List.getLast?_eq_getLast _ h]
  · unfold getFocusLocation
    rw [if_pos (Or.inr (Or.inr rfl)), if_neg (by decide), if_neg (by decide),
      if_neg (by simpa [List.isEmpty_iff] using h)]
    rfl
  · intro t hmem
    have h1 : ¬(t = "first" ∨ t = "last" ∨ t = "centre") := by
      simpa using hmem
    unfold getFocusLocation
    rw [if_neg h1]

/-- Witness for C7's amended theorem: on the counterexample frames, the
label-0 lookup fails, `last` picks the final row, `centre` returns the
all-row mean `(1,1)`, and a bogus policy is a fatal error; on a frame
that kept label 0, `first` returns that row's location. -/
theorem getFocusLocation_amended_witness :
    getFocusLocation c7Rows "first" = Except.error "KeyError: 0"
    ∧ getFocusLocation c7Rows "last" = Except.ok (7, 8)
    ∧ getFocusLocation c7CentreRows "first" = Except.ok (0, 0)
    ∧ getFocusLocation c7CentreRows "centre" = Except.ok (1, 1)
    ∧ getFocusLocation c7Rows "bogus" =
        Except.error "AssertionError: Invalid value for map_focus: bogus" := by
  have h1 := getFocusLocation_amended c7Rows (by decide)
  have h2 := getFocusLocation_amended c7CentreRows (by decide)
  refine ⟨?_, ?_, ?_, ?_, ?_⟩
  · exact h1.2.1 (by decide)
  · rw [h1.2.2.1]
    rfl
  · exact h2.1 ⟨0, 0, 0, 0⟩ (by decide)
  · rw [h2.2.2.2.1]
    simp only [Except.ok.injEq]
    norm_num [listSum, c7CentreRows]
  · rw [h1.2.2.2.2 "bogus" (by decide)]
    exact congrArg Except.error (by decide)

/-- C8 counterexample: the claim says exactly the rows lacking both
coordinates are dropped, so a row with a latitude but no longitude would
be retained; the code's `dropna` (default `how='any'`) drops it. -/
theorem c8_counterexample :
    processDataFilter [c8HalfRow] = []
    ∧ claimBothMissingFilter [c8HalfRow] = [c8HalfRow]
    ∧ processDataFilter [c8HalfRow] ≠ claimBothMissingFilter [c8HalfRow] := by
  refine ⟨by decide, by decide, by decide⟩

/-- Theorem for claim C8 (amended): after the enrichment workers
complete, exactly the rows still lacking at least one coordinate are
dropped — a row survives iff it is an input row with both coordinates
present, the survivors keep their relative order and content — and if
zero rows remain after this filtering, the run aborts with the fatal
`"No valid destinations to map."` error, otherwise it proceeds with
exactly the filtered rows. -/
theorem processDataFilter_spec (data : List ERow) :
    (∀ r, r ∈ processDataFilter data ↔
       r ∈ data ∧ r.latitude.isSome = true ∧ r.longitude.isSome = true)
    ∧ (processDataFilter data).Sublist data
    ∧ (processDataFilter data = [] →
        loadMapDataCheck data = Except.error "No valid destinations to map.")
    ∧ (processDataFilter data ≠ [] →
        loadMapDataCheck data = Except.ok (processDataFilter data)) := by
  refine ⟨?_, ?_, ?_, ?_⟩
  · intro r
    unfold processDataFilter
    rw [List.mem_filter]
    constructor
    · rintro ⟨h1, h2⟩
      exact ⟨h1, by simpa using h2⟩
    · rintro ⟨h1, h2, h3⟩
      exact ⟨h1, by simp [h2, h3]⟩
  · exact List.filter_sublist data
  · intro hemp
    unfold loadMapDataCheck
    rw [if_pos (by simpa [List.isEmpty_iff] using hemp)]
  · intro hne
    unfold loadMapDataCheck
    rw [if_neg (by simpa [List.isEmpty_iff] using hne)]

/-- Witness for C8's amended theorem on a concrete mixed data set. -/
theorem processDataFilter_spec_witness :
    (c8HalfRow ∈ processDataFilter [c8HalfRow] ↔
      c8HalfRow ∈ [c8HalfRow] ∧ c8HalfRow.latitude.isSome = true ∧
        c8HalfRow.longitude.isSome = true)
    ∧ loadMapDataCheck [c8HalfRow] = Except.error "No valid destinations to map." :=
  ⟨(processDataFilter_spec [c8HalfRow]).1 c8HalfRow,
    (processDataFilter_spec [c8HalfRow]).2.2.1 (by decide)⟩

theorem insertSorted_perm (x : ℕ) (l : List ℕ) :
    (insertSorted x l).Perm (x :: l) := by
  induction l with
  | nil => exact List.Perm.refl _
  | cons y ys ih =>
      unfold insertSorted
      by_cases h : x ≤ y
      · rw [if_pos h]
      · rw [if_neg h]
        exact List.Perm.trans (List.Perm.cons y ih) (List.Perm.swap x y ys)

theorem sortNat_perm (l : List ℕ) : (sortNat l).Perm l := by
  induction l with
  | nil => exact List.Perm.refl _
  | cons x xs ih =>
      unfold sortNat
      rw [List.foldr_cons]
      exact List.Perm.trans (insertSorted_perm x (xs.foldr insertSorted []))
        (List.Perm.cons x ih)

/-- C6 counterexample: the claim positions the group's visual marker at
the mean of the member coordinates, `(1,1)` here; the code emits the
marker at the FIRST member's location `(0,0)` (`plotMap` comments "Use
the first location in the group as the marker location"). -/
theorem c6_counterexample :
    (plotMapMarkers "" "" "" c6Rows).map (fun m => m.location) = [((0 : ℚ), (0 : ℚ))]
    ∧ membersOf c6Rows 0 = c6Rows
    ∧ claimRepresentativeLocation c6Rows = (1, 1)
    ∧ ((0 : ℚ), (0 : ℚ)) ≠ ((1 : ℚ), (1 : ℚ)) := by
  refine ⟨by decide, by decide, ?_, by decide⟩
  unfold claimRepresentativeLocation c6Rows
  norm_num [listSum]

/-- Theorem for claim C6 (amended): for every grouped input, `plotMap`
emits exactly one visual marker per group — the emitted list has one
entry per distinct `group_id` and the rendered group keys are distinct —
and for every group id present in the data some emitted marker is
positioned at the group's FIRST member's location and carries the merged
popup label that concatenates every member's HTML display label joined
by the double-line-break separator in member order. -/
theorem plotMapMarkers_spec (cfgC cfgI cfgP : String) (rows : List Row) :
    (plotMapMarkers cfgC cfgI cfgP rows).length = (groupIdsOf rows).length
    ∧ (sortedGroupIds rows).Nodup
    ∧ (∀ gid, gid ∈ rows.map (fun r => r.group_id) →
        ∃ m, m ∈ plotMapMarkers cfgC cfgI cfgP rows ∧
          m.location = (((membersOf rows gid).headD default).latitude,
            ((membersOf rows gid).headD default).longitude) ∧
          m.popup = String.intercalate "<br><br>"
            ((membersOf rows gid).map popupHtml)) := by
  refine ⟨?_, ?_, ?_⟩
  · unfold plotMapMarkers sortedGroupIds
    rw [List.length_map]
    exact (sortNat_perm (groupIdsOf rows)).length_eq
  · unfold sortedGroupIds
    refine ((sortNat_perm (groupIdsOf rows)).nodup_iff).mpr ?_
    unfold groupIdsOf
    exact List.nodup_dedup (rows.map (fun r => r.group_id))
  · intro gid hgid
    refine ⟨markerOfGroup cfgC cfgI cfgP (membersOf rows gid), ?_, rfl, rfl⟩
    unfold plotMapMarkers
    apply List.mem_map_of_mem
    unfold sortedGroupIds
    refine ((sortNat_perm (groupIdsOf rows)).mem_iff).mpr ?_
    unfold groupIdsOf
    exact List.mem_dedup.mpr hgid

/-- Witness for C6's amended theorem at the counterexample input. -/
theorem plotMapMarkers_spec_witness :
    ∃ m, m ∈ plotMapMarkers "" "" "" c6Rows ∧
      m.location = (((membersOf c6Rows 0).headD default).latitude,
        ((membersOf c6Rows 0).headD default).longitude) ∧
      m.popup = String.intercalate "<br><br>" ((membersOf c6Rows 0).map popupHtml) :=
  (plotMapMarkers_spec "" "" "" c6Rows).2.2 0 (by decide)

/-- Theorem for claim C10: the icon colour of a group's visual marker is
taken solely from the first member row's `marker_colour` — two groups
with equal first-member colours render identically-coloured icons no
matter what the later members (or the first member's other fields)
contain — and the rendered colour is the first member's value, falling
back to the configured default only when that value is empty (and to the
built-in `"blue"` when the default is empty too); `plotMap` renders each
group through exactly this per-group marker construction. -/
theorem markerColour_firstMember (cfgC cfgI cfgP : String) (g1 g2 : List Row)
    (h : (g1.headD default).marker_colour = (g2.headD default).marker_colour) :
    (markerOfGroup cfgC cfgI cfgP g1).icon.color =
        (markerOfGroup cfgC cfgI cfgP g2).icon.color
    ∧ (markerOfGroup cfgC cfgI cfgP g1).icon.color =
        (if (g1.headD default).marker_colour ≠ "" then (g1.headD default).marker_colour
         else if cfgC ≠ "" then cfgC else "blue")
    ∧ ∀ rows, plotMapMarkers cfgC cfgI cfgP rows =
        (sortedGroupIds rows).map
          (fun gid => markerOfGroup cfgC cfgI cfgP (membersOf rows gid)) := by
  refine ⟨?_, ?_, fun rows => rfl⟩
  · show (createIcon cfgC cfgI cfgP (g1.headD default).marker_colour "" "").color =
      (createIcon cfgC cfgI cfgP (g2.headD default).marker_colour "" "").color
    rw [h]
  · show pyOr (pyOr (g1.headD default).marker_colour cfgC) "blue" =
      (if (g1.headD default).marker_colour ≠ "" then (g1.headD default).marker_colour
       else if cfgC ≠ "" then cfgC else "blue")
    unfold pyOr
    by_cases h1 : (g1.headD default).marker_colour = ""
    · rw [if_pos h1]
      by_cases h2 : cfgC = ""
      · rw [if_pos h2, if_neg (not_not_intro h1), if_neg (fun hn => hn h2)]
      · rw [if_neg h2, if_neg (not_not_intro h1), if_pos h2]
    · rw [if_neg h1, if_neg h1, if_pos h1]

/-- Witness for C10 at concrete groups. -/
theorem markerColour_firstMember_witness :
    (markerOfGroup "" "" "" c10GroupA).icon.color =
        (markerOfGroup "" "" "" c10GroupB).icon.color
    ∧ (markerOfGroup "" "" "" c10GroupA).icon.color = "red" := by
  have h := markerColour_firstMember "" "" "" c10GroupA c10GroupB (by decide)
  refine ⟨h.1, ?_⟩
  rw [h.2.1]
  decide

/-- C5 counterexample: on a distance match the claim recomputes the
marker location as the mean over the prior member coordinates AND the
candidate's `(0, 1/2)` — giving `(2, 1/4)` — but the code averages the
prior member coordinates with the MARKER'S own current `(0,0)` (the
candidate does not participate), giving `(2, 0)`. -/
theorem c5_counterexample :
    (getMarker distL1 1 c5Store c5Row).1.markers =
      [⟨1, "A<br><br><span><b>B</b></span>", 2, 0, 2⟩]
    ∧ claimCentroid c5Store ⟨1, "A", 0, 0, 2⟩ (0, 1/2) = (2, 1/4)
    ∧ ((2 : ℚ), (0 : ℚ)) ≠ ((2 : ℚ), (1/4 : ℚ)) := by
  refine ⟨?_, ?_, by norm_num⟩
  · have hfind : findNearMarker distL1 1 (c5Row.latitude, c5Row.longitude)
        c5Store.markers = some ⟨1, "A", 0, 0, 2⟩ := by
      unfold findNearMarker c5Store c5Row distL1
      norm_num [abs_of_nonneg]
    unfold getMarker
    rw [hfind]
    simp only [c5Store, c5Row, List.map_cons, List.map_nil, beq_self_eq_true, if_pos,
      List.cons.injEq, and_true, MarkerRow.mk.injEq]
    norm_num [meanPt, mergedCoords, placesOf, listSum, getPlaceHTMLName, c5Store]
    decide
  · unfold claimCentroid c5Store placesOf meanPt
    norm_num [listSum]

/-- Theorem for claim C5 (amended): in the storage-backed variant, when
an incoming record is within the distance threshold of an existing
marker (the first such marker in store order), that marker's location is
recomputed as the unweighted mean over all prior member place
coordinates AND the marker's own current coordinates (the candidate's
coordinates are not included), its label becomes the old label, the
separator, then the new label; the `place` table and every other marker
are untouched and the matched marker's id is returned.  When no existing
marker is within threshold, a new marker is inserted with the record's
own coordinates and label, and the fresh id is returned. -/
theorem getMarker_spec (dist : DistFn) (th : ℚ) (st : MarkerStore) (row : CandRow) :
    (findNearMarker dist th (row.latitude, row.longitude) st.markers = none ↔
      ∀ m ∈ st.markers, dist (row.latitude, row.longitude) (m.latitude, m.longitude) > th)
    ∧ (∀ m, findNearMarker dist th (row.latitude, row.longitude) st.markers = some m →
        (getMarker dist th st row).2 = m.id
        ∧ (getMarker dist th st row).1.places = st.places
        ∧ (getMarker dist th st row).1.nextId = st.nextId
        ∧ (getMarker dist th st row).1.markers.length = st.markers.length
        ∧ (∀ mk ∈ st.markers, mk.id ≠ m.id →
            mk ∈ (getMarker dist th st row).1.markers)
        ∧ (m ∈ st.markers →
            { m with
              name := m.name ++ "<br><br>" ++
                getPlaceHTMLName row.place_name row.open_time row.close_time,
              latitude := (meanPt (mergedCoords st m)).1,
              longitude := (meanPt (mergedCoords st m)).2 } ∈
              (getMarker dist th st row).1.markers))
    ∧ (findNearMarker dist th (row.latitude, row.longitude) st.markers = none →
        (getMarker dist th st row).1.markers = st.markers ++
          [⟨st.nextId,
            getPlaceHTMLName row.place_name row.open_time row.close_time,
            row.latitude, row.longitude, newIconId row.marker_colour⟩]
        ∧ (getMarker dist th st row).2 = st.nextId
        ∧ (getMarker dist th st row).1.places = st.places) := by
  refine ⟨?_, ?_, ?_⟩
  · induction st.markers with
    | nil =>
        simp [findNearMarker]
    | cons m ms ih =>
        unfold findNearMarker
        by_cases hd : dist (row.latitude, row.longitude) (m.latitude, m.longitude) > th
        · rw [if_pos hd]
          constructor
          · intro hnone mk hmk
            rcases List.mem_cons.mp hmk with hm | hm
            · rw [hm]
              exact hd
            · exact ih.mp hnone mk hm
          · intro hall
            exact ih.mpr (fun mk hmk => hall mk (List.mem_cons_of_mem m hmk))
        · rw [if_neg hd]
          constructor
          · intro hcontra
            exact Option.noConfusion hcontra
          · intro hall
            exact absurd (hall m (List.mem_cons_self m ms)) hd
  · intro m hm
    unfold getMarker
    rw [hm]
    refine ⟨rfl, rfl, rfl, by rw [List.length_map], ?_, ?_⟩
    · intro mk hmk hne
      have : (fun mk : MarkerRow =>
          if mk.id == m.id then
            { mk with
              name := m.name ++ "<br><br>" ++
                getPlaceHTMLName row.place_name row.open_time row.close_time,
              latitude := (meanPt (mergedCoords st m)).1,
              longitude := (meanPt (mergedCoords st m)).2 }
          else mk) mk = mk := by
        simp only [beq_iff_eq]
        rw [if_neg hne]
      rw [← this]
      exact List.mem_map_of_mem _ hmk
    · intro hmem
      have : (fun mk : MarkerRow =>
          if mk.id == m.id then
            { mk with
              name := m.name ++ "<br><br>" ++
                getPlaceHTMLName row.place_name row.open_time row.close_time,
              latitude := (meanPt (mergedCoords st m)).1,
              longitude := (meanPt (mergedCoords st m)).2 }
          else mk) m =
          { m with
            name := m.name ++ "<br><br>" ++
              getPlaceHTMLName row.place_name row.open_time row.close_time,
            latitude := (meanPt (mergedCoords st m)).1,
            longitude := (meanPt (mergedCoords st m)).2 } := by
        simp only [beq_self_eq_true, if_pos]
      rw [← this]
      exact List.mem_map_of_mem _ hmem
  · intro hnone
    unfold getMarker
    rw [hnone]
    exact ⟨rfl, rfl, rfl⟩

/-- Witness for C5's amended theorem at the counterexample store: the
match branch applies to marker 1. -/
theorem getMarker_spec_witness :
    (getMarker distL1 1 c5Store c5Row).2 = 1
    ∧ (getMarker distL1 1 c5Store c5Row).1.places = c5Store.places
    ∧ ({ (⟨1, "A", 0, 0, 2⟩ : MarkerRow) with
          name := "A" ++ "<br><br>" ++
            getPlaceHTMLName c5Row.place_name c5Row.open_time c5Row.close_time,
          latitude := (meanPt (mergedCoords c5Store ⟨1, "A", 0, 0, 2⟩)).1,
          longitude := (meanPt (mergedCoords c5Store ⟨1, "A", 0, 0, 2⟩)).2 } ∈
        (getMarker distL1 1 c5Store c5Row).1.markers) := by
  have hfind : findNearMarker distL1 1 (c5Row.latitude, c5Row.longitude)
      c5Store.markers = some ⟨1, "A", 0, 0, 2⟩ := by
    unfold findNearMarker c5Store c5Row distL1
    norm_num [abs_of_nonneg]
  have h := (getMarker_spec distL1 1 c5Store c5Row).2.1 ⟨1, "A", 0, 0, 2⟩ hfind
  exact ⟨h.1, h.2.1, h.2.2.2.2.2 (by decide)⟩

/-- Exhibit for the C1 code bug: upgrading v1→v3 where the v1→v2
population script runs (its `COMMIT` on the shared cursor ends the
enclosing transaction) and the v2→v3 schema application then fails.  The
call raises as documented, but the database is left with the v1→v2
schema and population changes committed — not in its pre-call state —
while the ledger still reads version 1. -/
theorem c1_partial_upgrade_on_failure :
    upgradeDatabase c1World c1Init 1 3 =
      Except.error (DbErr.database, ⟨[(1, 2)], [(1, 2)], [1]⟩)
    ∧ (⟨[(1, 2)], [(1, 2)], [1]⟩ : DbState) ≠ c1Init :=
  ⟨rfl, by decide⟩

/-- Control run for C1: with no population script on disk, a failing
later step does roll the whole upgrade back to the initial state —
the partial application above is caused precisely by the population
script's mid-transaction `COMMIT`. -/
theorem c1_control_rollback_without_pop :
    upgradeDatabase ⟨fun a b => a == 2 && b == 3, fun _ _ => false, fun _ _ => false⟩
      c1Init 1 3 = Except.error (DbErr.database, c1Init) := rfl

/-- Control run for C1: a failing population script triggers the
script's own `ROLLBACK`, which does restore the initial state. -/
theorem c1_control_rollback_on_pop_failure :
    upgradeDatabase ⟨fun _ _ => false, fun a b => a == 1 && b == 2,
        fun a b => a == 1 && b == 2⟩
      c1Init 1 3 = Except.error (DbErr.database, c1Init) := rfl

/-- Control run for C1: the successful path applies both steps, the
population script, and appends the target version to the ledger. -/
theorem c1_control_happy_path :
    upgradeDatabase ⟨fun _ _ => false, fun a b => a == 1 && b == 2, fun _ _ => false⟩
      c1Init 1 3 = Except.ok ⟨[(1, 2), (2, 3)], [(1, 2)], [1, 3]⟩ := rfl

/-- Exhibit for the C2 code bug: creating a previously absent database
with a missing schema file raises as documented, but the newly created
database object is still present afterwards — `dropDatabase` ran while
`createDatabase`'s own connection to the target database was still open
(it is closed only in `finally`), so PostgreSQL refused the `DROP
DATABASE` and the error was swallowed. -/
theorem c2_database_not_dropped_on_failure :
    createDatabase c2World c2Cluster 1 =
      Except.error (DbErr.schemaFileNotFound, ⟨true, ⟨[], [], []⟩⟩)
    ∧ c2Cluster.dbExists = false
    ∧ (⟨true, ⟨[], [], []⟩⟩ : PgCluster).dbExists = true :=
  ⟨rfl, rfl, rfl⟩

/-- Control for C2: had the drop been attempted with no other session
connected (as the code intends), the database object would be gone. -/
theorem c2_control_drop_without_sessions (cl : PgCluster) :
    (dropDatabase false cl).dbExists = false := rfl

/-- Control for C2: the successful creation path commits schema and
population and reports the database present. -/
theorem c2_control_happy_path :
    createDatabase ⟨false, true, false⟩ c2Cluster 1 =
      Except.ok ⟨true, ⟨[(0, 1)], [(0, 1)], []⟩⟩ := rfl

/-- Control for C2: a failing population script also leaves the database
object present (same open-session drop failure). -/
theorem c2_control_present_on_pop_failure :
    createDatabase ⟨false, true, true⟩ c2Cluster 1 =
      Except.error (DbErr.dataPopulation, ⟨true, ⟨[], [], []⟩⟩) := rfl

end PyMapify
